import Mathlib

/-
Verification of the go_validate rule-execution engine (validation.go) and the
jsonutil JSON input adapter, via a shallow embedding in Lean 4.

Go values of type `any` are modelled by a type parameter `α` (absent values are
`Option.none`); Go maps whose claims only need lookup/insert are modelled as
association lists (`List (String × _)`, first binding wins); Go slices are
lists. Functions follow the Go source statement by statement; the few
collaborator types whose Go source is not part of the verified corpus
(Translator, Errors, FilterRule.Apply, DataFace implementations) are modelled
from the specification document, and are marked as such in their doc comments.
-/

namespace GoValidate

/-- Go strings.Split with a one-character separator: character-level splitter,
accumulating the current segment (reversed) in `acc`. -/
def splitCh (sep : Char) : List Char → List Char → List String
  | [], acc => [String.mk acc.reverse]
  | c :: rest, acc =>
    if c = sep then String.mk acc.reverse :: splitCh sep rest []
    else splitCh sep rest (c :: acc)

/-- Go strings.Split(field, ".") as used by isNotNeedToCheck. -/
def splitDot (s : String) : List String := splitCh '.' s.toList []

/-- Go strings.Join(parts, ".") as used by isNotNeedToCheck. -/
def joinDot (l : List String) : String :=
  String.mk (((l.map String.toList).intersperse ['.']).flatten)

/-- Go strings.TrimSuffix: drop the suffix when present, else return unchanged. -/
def trimSuffix (s suffix : String) : String :=
  if suffix.toList.isSuffixOf s.toList then
    String.mk (s.toList.take (s.toList.length - suffix.toList.length))
  else s

/-- Error class constant for filter failures (validation.go line 18). -/
def filterError : String := "_filter"

/-- Error class constant for generic validate failures (validation.go line 19). -/
def validateError : String := "_validate"

/-- Validator provenance constant (validation.go line 27). -/
def validatorTypeBuiltin : Nat := 1

/-- Validator provenance constant (validation.go line 28). -/
def validatorTypeCustom : Nat := 2

/-- Kind of a data source, per the DataFace contract (struct, map or form backed). -/
inductive SourceType where
  | form
  | mapSource
  | structSource
deriving DecidableEq, Repr

/-- The struct-backed source kind, as compared by `v.data.Type() == sourceStruct`. -/
def sourceStruct : SourceType := SourceType.structSource

/-- Meta info wrapper of a resolved validator callable (funcMeta in the Go
source, which is outside the verified corpus). The reflect.Value callable is
abstracted to a numeric identity `fv`. -/
structure funcMeta where
  name : String
  isInternal : Bool
  fv : Nat
deriving DecidableEq, Repr

/-- Constructor of funcMeta, mirroring newFuncMeta(name, isInternal, fv). -/
def newFuncMeta (name : String) (isInternal : Bool) (fv : Nat) : funcMeta :=
  { name := name, isInternal := isInternal, fv := fv }

/-- Modelled from the spec: the DataFace contract (section 3/4.1 of the spec;
the Go interface and its struct/map/form implementations are outside the
verified corpus). `getF` is Get, `tryGetF` is TryGet (value, found, isZero),
`setF` is Set (normalized value, error), `funcValueF` is the struct-backed
"find method by name" capability used by registry resolution. -/
structure DataFace (α : Type) where
  typ : SourceType
  getF : String → Option α × Bool
  tryGetF : String → Option α × Bool × Bool
  setF : String → α → α × Option String
  funcValueF : String → Option Nat

/-- Modelled from the spec: the Translator holds an injected label map; its
FieldName resolution falls back to the raw field name (spec section 4.5). -/
structure Translator where
  labelMap : List (String × String)

/-- Modelled from the spec: display-name resolution via the label map with
fallback to the raw field name. -/
def Translator.FieldName (t : Translator) (field : String) : String :=
  (t.labelMap.lookup field).getD field

/-- One recorded error: (field, validator, message). The Go Errors collection
(outside the verified corpus) is modelled from the spec as an ordered,
append-only sequence of field/validator/message triples. -/
abbrev ErrorEntry := String × String × String

/-- Modelled from the spec: Errors.Add appends one field/validator/message entry. -/
def addErrorEntry (es : List ErrorEntry) (field validator msg : String) :
    List ErrorEntry :=
  es ++ [(field, validator, msg)]

/-- A validate rule: target fields, validator name, static args and the
skip-empty flag (the Rule struct lives outside the verified corpus; only its
identity matters for the claims below). -/
structure Rule where
  fields : List String
  validator : String
  skipEmpty : Bool := false
deriving DecidableEq, Repr

/-- A filter (sanitize) rule: target fields plus the transform to run, which
either produces the transformed value or fails with a message. The FilterRule
struct lives outside the verified corpus; the transform is modelled from the
spec as a function of the field's current value. -/
structure FilterRule (α : Type) where
  fields : List String
  filterFunc : Option α → Except String α

/-- The Validation struct (validation.go lines 32-96). Maps are association
lists, slices are lists, `any` is `α`. Field defaults are the Go zero values. -/
structure Validation (α : Type) where
  data : Option (DataFace α) := none
  safeData : List (String × α) := []
  filteredData : List (String × α) := []
  defValues : List (String × α) := []
  Errors : List ErrorEntry := []
  StopOnError : Bool := false
  SkipOnEmpty : Bool := false
  UpdateSource : Bool := false
  CheckDefault : Bool := false
  hasError : Bool := false
  hasFiltered : Bool := false
  hasValidated : Bool := false
  rules : List Rule := []
  validators : List (String × Nat) := []
  validatorMetas : List (String × funcMeta) := []
  scene : String := ""
  scenes : List (String × List String) := []
  sceneFields : List String := []
  filterRules : List (FilterRule α) := []
  trans : Translator := { labelMap := [] }

variable {α : Type}

/-- ResetResult (validation.go lines 113-121): clear the validate result. -/
def Validation.ResetResult (v : Validation α) : Validation α :=
  { v with
    Errors := []
    hasError := false
    hasFiltered := false
    hasValidated := false
    safeData := []
    filteredData := [] }

/-- resetRules (validation.go lines 137-141): truncate both rule lists to empty. -/
def Validation.resetRules (v : Validation α) : Validation α :=
  { v with rules := [], filterRules := [] }

/-- Reset (validation.go lines 130-135): ResetResult followed by resetRules. -/
def Validation.Reset (v : Validation α) : Validation α :=
  v.ResetResult.resetRules

/-- IsOK (validation.go line 560). -/
def Validation.IsOK (v : Validation α) : Bool := !v.hasError

/-- IsFail (validation.go line 563). -/
def Validation.IsFail (v : Validation α) : Bool := v.hasError

/-- IsSuccess (validation.go line 566). -/
def Validation.IsSuccess (v : Validation α) : Bool := !v.hasError

/-- AddError (validation.go lines 358-365): raise the fail flag, translate the
field name, append the entry. -/
def Validation.AddError (v : Validation α) (field validator msg : String) :
    Validation α :=
  let v1 := if !v.hasError then { v with hasError := true } else v
  let field1 := v1.trans.FieldName field
  { v1 with Errors := addErrorEntry v1.Errors field1 validator msg }

/-- Raw (validation.go lines 389-394): nil data gives (nil, false), otherwise
delegate to the data source's Get. -/
def Validation.Raw (v : Validation α) (key : String) : Option α × Bool :=
  match v.data with
  | none => (none, false)
  | some d => d.getF key

/-- tryGet (validation.go lines 410-428): nil data gives the zero results;
otherwise filteredData, then safeData (both reporting zero=false), then the
data source's TryGet. -/
def Validation.tryGet (v : Validation α) (key : String) :
    Option α × Bool × Bool :=
  match v.data with
  | none => (none, false, false)
  | some d =>
    match v.filteredData.lookup key with
    | some val => (some val, true, false)
    | none =>
      match v.safeData.lookup key with
      | some val => (some val, true, false)
      | none => d.tryGetF key

/-- Get (validation.go lines 431-434): tryGet dropping the zero flag. -/
def Validation.Get (v : Validation α) (key : String) : Option α × Bool :=
  ((v.tryGet key).1, (v.tryGet key).2.1)

/-- GetWithDefault (validation.go lines 439-452): tryGet, then the defValues
fallback whenever the value is missing or zero-valued. -/
def Validation.GetWithDefault (v : Validation α) (key : String) :
    Option α × Bool × Bool :=
  match v.tryGet key with
  | (val, exist, zero) =>
    if exist && !zero then (val, exist, false)
    else
      match v.defValues.lookup key with
      | some defVal => (some defVal, exist, true)
      | none => (val, exist, false)

/-- Safe (validation.go lines 460-466): nil data gives (nil, false) even when
safeData holds the key; otherwise look up safeData. -/
def Validation.Safe (v : Validation α) (key : String) : Option α × Bool :=
  match v.data with
  | none => (none, false)
  | some _ =>
    match v.safeData.lookup key with
    | some val => (some val, true)
    | none => (none, false)

/-- Modelled from the spec: the ErrEmptyData sentinel returned by Set on a nil
data source (its Go declaration is outside the verified corpus). -/
def ErrEmptyData : String := "validate: please input data use for validate"

/-- Set (validation.go lines 501-509): ErrEmptyData on nil data, otherwise the
error component of the data source's Set. -/
def Validation.Set (v : Validation α) (field : String) (val : α) :
    Option String :=
  match v.data with
  | none => some ErrEmptyData
  | some d => (d.setF field val).2

/-- updateValue (validation.go lines 512-520): on a struct-backed source call
Set with any trailing ".*" stripped; on other sources return the value
unchanged without touching the source. A nil data source would make the Go code
panic at `v.data.Type()`; the model returns `none` there and every theorem
below assumes a data source is present. -/
def Validation.updateValue (v : Validation α) (field : String) (val : α) :
    Option (α × Option String) :=
  match v.data with
  | none => none
  | some d =>
    if d.typ = sourceStruct then some (d.setF (trimSuffix field ".*") val)
    else some (val, none)

/-- SetDefValue (validation.go lines 523-528). -/
def Validation.SetDefValue (v : Validation α) (field : String) (val : α) :
    Validation α :=
  { v with defValues := (field, val) :: v.defValues }

/-- sceneFieldMap (validation.go lines 542-554): empty scene or unknown scene
name gives the empty set, otherwise the scene's field list (a Go set-valued
map, modelled by the list with membership semantics). -/
def Validation.sceneFieldMap (v : Validation α) : List String :=
  if v.scene = "" then []
  else
    match v.scenes.lookup v.scene with
    | some fields => fields
    | none => []

/-- isNotNeedToCheck (validation.go lines 585-600): with no scene restriction
every field is checked; otherwise probe every dotted prefix join(fields[0:i])
for i in [0, len) — including the empty join at i=0 — and finally the exact
field name. -/
def Validation.isNotNeedToCheck (v : Validation α) (field : String) : Bool :=
  if v.sceneFields.length = 0 then false
  else if (List.range (splitDot field).length).any
      (fun i => v.sceneFields.contains (joinDot ((splitDot field).take i))) then false
  else !(v.sceneFields.contains field)

/-- AddValidator (validation.go lines 215-223): register a custom validator in
the session-local tables. checkValidatorFunc's shape validation (a hard panic
on malformed callables, outside the verified corpus) is modelled by taking an
already-checked callable identity `fv`. -/
def Validation.AddValidator (v : Validation α) (name : String) (fv : Nat) :
    Validation α :=
  { v with
    validators := (name, validatorTypeCustom) :: v.validators
    validatorMetas := (name, newFuncMeta name false fv) :: v.validatorMetas }

/-- validatorMeta (validation.go lines 226-250): session-local table first,
then the process-wide global table `g`, then — only for a struct-backed data
source — the struct's own method lookup, whose hit is memoized into the local
tables. A nil data source reaching the third step would make the Go code panic
at `v.data.Type()`; the model returns no hit there and the theorems below
assume a data source is present for that step. -/
def Validation.validatorMeta (v : Validation α) (g : List (String × funcMeta))
    (name : String) : Option funcMeta × Validation α :=
  match v.validatorMetas.lookup name with
  | some fm => (some fm, v)
  | none =>
    match g.lookup name with
    | some fm => (some fm, v)
    | none =>
      match v.data with
      | some d =>
        if d.typ = sourceStruct then
          match d.funcValueF name with
          | some fv =>
            let fm := newFuncMeta name false fv
            (some fm,
              { v with
                validators := (name, validatorTypeCustom) :: v.validators
                validatorMetas := (name, fm) :: v.validatorMetas })
          | none => (none, v)
        else (none, v)
      | none => (none, v)

/-- Modelled from the spec: the body of FilterRule.Apply (outside the verified
corpus) — for each target field fetch the current value through the lookup
chain, run the transform, record the transformed value in filteredData; a
transform error aborts, leaving earlier fields' writes in place (spec 4.4,
filtering phase). -/
def applyFilterToFields (f : Option α → Except String α) :
    List String → Validation α → Validation α × Option String
  | [], v => (v, none)
  | field :: rest, v =>
    match f (v.tryGet field).1 with
    | Except.ok newVal =>
      applyFilterToFields f rest
        { v with filteredData := (field, newVal) :: v.filteredData }
    | Except.error e => (v, some e)

/-- FilterRule.Apply, assembled from the per-field loop above. -/
def FilterRule.Apply (r : FilterRule α) (v : Validation α) :
    Validation α × Option String :=
  applyFilterToFields r.filterFunc r.fields v

/-- The filter-rule loop body of Filtering (validation.go lines 297-302):
apply each rule in order; on the first rule error add one filter-class error
and break out of the loop. -/
def applyFilterRules : Validation α → List (FilterRule α) → Validation α
  | v, [] => v
  | v, r :: rest =>
    match r.Apply v with
    | (v1, some e) =>
      v1.AddError filterError filterError ((r.fields.headD "") ++ ": " ++ e)
    | (v1, none) => applyFilterRules v1 rest

/-- Filtering (validation.go lines 291-306): once-guarded by hasFiltered,
returning the cached success state on re-entry; otherwise run the filter rules,
mark hasFiltered and return the success state. -/
def Validation.Filtering (v : Validation α) : Validation α × Bool :=
  if v.hasFiltered then (v, v.IsSuccess)
  else
    let v1 := applyFilterRules v v.filterRules
    let v2 := { v1 with hasFiltered := true }
    (v2, v2.IsSuccess)

/-- Sanitize (validation.go line 288) is an alias of Filtering. -/
def Validation.Sanitize (v : Validation α) : Validation α × Bool := v.Filtering

/-- Run a list of filter rules from a state, succeeding with the final state
only when every rule's Apply reports no error (used to phrase "the rules before
the failing one all succeeded"). -/
def applyOk : Validation α → List (FilterRule α) → Option (Validation α)
  | v, [] => some v
  | v, r :: rest =>
    match r.Apply v with
    | (v1, none) => applyOk v1 rest
    | (_, some _) => none

/-- Follows the claim text of C2, not the source: a field is in scene when some
proper (nonempty) dotted ancestor of it is listed, or the field itself is
listed. Compared against isNotNeedToCheck. -/
def claimInScene (sceneFields : List String) (field : String) : Bool :=
  let fields := splitDot field
  (List.range fields.length).any
    (fun i => decide (i ≠ 0) && sceneFields.contains (joinDot (fields.take i)))
    || sceneFields.contains field

/-- A concrete map-backed data source over Nat values, for witnesses. -/
def dfMap : DataFace Nat :=
  { typ := SourceType.mapSource
    getF := fun k => if k = "age" then (some 30, true) else (none, false)
    tryGetF := fun k => if k = "age" then (some 30, true, false) else (none, false, false)
    setF := fun _ val => (val, some "map source never consulted")
    funcValueF := fun _ => none }

/-- A concrete struct-backed data source over Nat values, for witnesses. -/
def dfStruct : DataFace Nat :=
  { typ := sourceStruct
    getF := fun k => if k = "age" then (some 30, true) else (none, false)
    tryGetF := fun k => if k = "age" then (some 30, true, false) else (none, false, false)
    setF := fun _ val => (val + 1, none)
    funcValueF := fun k => if k = "checkIt" then some 9 else none }

/-- A concrete validate rule, for witnesses. -/
def ruleReq : Rule := { fields := ["name"], validator := "required" }

/-- A filter rule that succeeds, writing value+1 for field "a". -/
def frOk : FilterRule Nat :=
  { fields := ["a"], filterFunc := fun x => Except.ok ((x.getD 0) + 1) }

/-- A filter rule that always fails with "boom" on field "b". -/
def frBad : FilterRule Nat :=
  { fields := ["b"], filterFunc := fun _ => Except.error "boom" }

/-- A filter rule after the failing one, which must never run. -/
def frAfter : FilterRule Nat :=
  { fields := ["c"], filterFunc := fun x => Except.ok (x.getD 0) }

/-- Concrete instance for the C1 counterexample: one rule and one filter rule
registered, no run-state yet. -/
def vC1 : Validation Nat := { rules := [ruleReq], filterRules := [frOk] }

/-- Concrete instance for the C2 counterexample: the active scene lists the
empty-string field name. -/
def vC2 : Validation Nat :=
  { scene := "s", scenes := [("s", [""])], sceneFields := [""] }

/-- Concrete instance for the C3 witness: an ok rule, then a failing rule,
then a rule that must never run. -/
def vC3 : Validation Nat := { data := some dfMap, filterRules := [frOk, frBad, frAfter] }

/-- The state after the ok rule of vC3 has been applied. -/
def wC3 : Validation Nat := { vC3 with filteredData := [("a", 1)] }

/-- Concrete instance for the C5/C10 witnesses: map-backed data with one entry
in each of filteredData, safeData and defValues. -/
def vC5 : Validation Nat :=
  { data := some dfMap
    filteredData := [("f", 7)]
    safeData := [("s", 8)]
    defValues := [("d", 9)] }

/-- Concrete instance with a nil data source but a safeData entry, for C10. -/
def vNil : Validation Nat := { data := none, safeData := [("k", 5)] }

/-- Concrete struct-backed instance for the C6/C8 witnesses. -/
def vStruct : Validation Nat := { data := some dfStruct }

/-- Concrete map-backed instance for the C8 witness. -/
def vMap : Validation Nat := { data := some dfMap }

/-- A concrete global validator table, for the C6 witness. -/
def gTable : List (String × funcMeta) := [("isEmail", newFuncMeta "isEmail" true 1)]

/-- A concrete instance already carrying an error, for the C7 witness. -/
def vErr : Validation Nat := { hasError := true, Errors := [("a", "b", "c")] }

end GoValidate

namespace Jsonutil

/-
Model of the jsonutil JSON input adapter. The encoding/json decoder is an
external library; its outcome on a given byte payload is abstracted as a
`DecodeResult` attribute of the payload, and the trailing-token test
`d.More()` as a boolean attribute. The mapping from decode outcome to HTTP
status — the code under verification — is then a total function.
-/

/-- Outcome of `d.Decode(&v)`, one constructor per branch the adapter
distinguishes: success, a JSON SyntaxError with byte offset, an unexpected EOF,
an UnmarshalTypeError with field name and offset, an unknown-field error, a
plain EOF (empty body), the oversized-body error, and any other failure. -/
inductive DecodeResult where
  | ok
  | synErr (offset : Nat)
  | unexpectedEOF
  | typeMismatch (field : String) (offset : Nat)
  | unknownField (name : String)
  | eof
  | tooLarge
  | otherErr (msg : String)
deriving DecidableEq, Repr

/-- A JSON payload (request body or raw data bytes), abstracted to how the
decoder reacts to it: the decode outcome and whether more JSON values trail
the first one. -/
structure Body where
  decode : DecodeResult
  more : Bool
deriving DecidableEq, Repr

/-- An HTTP request, abstracted to what the adapter inspects: whether reading
the body fails, whether HasContentType(r, "application/json") holds, and the
body payload itself. -/
structure Request where
  bodyReadErr : Bool
  isJsonContentType : Bool
  body : Body
deriving DecidableEq, Repr

/-- The decode-and-check tail of Unmarshal (part_000 lines 59-83): map each
decode failure to its status code and message; on success reject trailing JSON
values, else report 200. -/
def decodeStatus : DecodeResult → Bool → Nat × Option String
  | DecodeResult.ok, more =>
    if more then (400, some "body must contain only one JSON object")
    else (200, none)
  | DecodeResult.synErr off, _ =>
    (400, some ("malformed json at position " ++ toString off))
  | DecodeResult.unexpectedEOF, _ => (400, some "malformed json")
  | DecodeResult.typeMismatch f off, _ =>
    (400, some ("invalid value " ++ f ++ " at position " ++ toString off))
  | DecodeResult.unknownField n, _ => (400, some ("unknown field " ++ n))
  | DecodeResult.eof, _ => (400, some "body must not be empty")
  | DecodeResult.tooLarge, _ => (413, some "http: request body too large")
  | DecodeResult.otherErr m, _ => (500, some ("failed to decode json " ++ m))

/-- Unmarshal (part_000 lines 22-84): reject absent or ambiguous input sources
with 415; on the request path, a body read failure is 400 and a non-JSON
content type is 415; otherwise decode the chosen payload and map the outcome
via decodeStatus. -/
def Unmarshal (r : Option Request) (data : Option Body) : Nat × Option String :=
  match r, data with
  | none, none => (415, some "no data provided")
  | some _, some _ =>
    (415, some "multiple data provided for unmarshalling not supported")
  | some req, none =>
    if req.bodyReadErr then (400, some "error reading request body")
    else if !req.isJsonContentType then
      (415, some "content-type is not application/json")
    else decodeStatus req.body.decode req.body.more
  | none, some d => decodeStatus d.decode d.more

end Jsonutil

namespace GoValidate

variable {α : Type}

theorem AddError_hasError (v : Validation α) (f c m : String) :
    (v.AddError f c m).hasError = true := by
  unfold Validation.AddError
  by_cases h : v.hasError <;> simp [h]

theorem AddError_Errors (v : Validation α) (f c m : String) :
    (v.AddError f c m).Errors = v.Errors ++ [(v.trans.FieldName f, c, m)] := by
  unfold Validation.AddError addErrorEntry
  by_cases h : v.hasError <;> simp [h]

theorem applyFilterToFields_state (f : Option α → Except String α)
    (fs : List String) (v : Validation α) :
    (applyFilterToFields f fs v).1 =
      { v with filteredData := (applyFilterToFields f fs v).1.filteredData } := by
  induction fs generalizing v with
  | nil => rfl
  | cons field rest ih =>
    cases h : f (v.tryGet field).1 with
    | ok newVal =>
      have hstep : applyFilterToFields f (field :: rest) v =
          applyFilterToFields f rest
            { v with filteredData := (field, newVal) :: v.filteredData } := by
        simp only [applyFilterToFields, h]
      rw [hstep]
      exact ih _
    | error e =>
      have hstep : applyFilterToFields f (field :: rest) v = (v, some e) := by
        simp only [applyFilterToFields, h]
      rw [hstep]

theorem Apply_state (r : FilterRule α) (v : Validation α) :
    (r.Apply v).1 = { v with filteredData := (r.Apply v).1.filteredData } :=
  applyFilterToFields_state r.filterFunc r.fields v

theorem applyOk_state (pre : List (FilterRule α)) :
    ∀ v w : Validation α, applyOk v pre = some w →
      w = { v with filteredData := w.filteredData } := by
  induction pre with
  | nil =>
    intro v w h
    have h' : some v = some w := h
    injection h' with h'
    subst h'
    rfl
  | cons r rest ih =>
    intro v w h
    cases hA : r.Apply v with
    | mk v1 err =>
      cases err with
      | none =>
        have h1 : applyOk v1 rest = some w := by
          unfold applyOk at h
          rw [hA] at h
          exact h
        have h2 := ih v1 w h1
        have h3 : v1 = { v with filteredData := v1.filteredData } := by
          have := Apply_state r v
          rw [hA] at this
          simpa using this
        rw [h3] at h2
        exact h2
      | some e =>
        exfalso
        unfold applyOk at h
        rw [hA] at h
        exact Option.noConfusion h

theorem applyFilterRules_break (bad : FilterRule α) (e : String)
    (pre : List (FilterRule α)) :
    ∀ (v w : Validation α) (post : List (FilterRule α)),
      applyOk v pre = some w → (bad.Apply w).2 = some e →
      applyFilterRules v (pre ++ bad :: post) =
        (bad.Apply w).1.AddError filterError filterError
          ((bad.fields.headD "") ++ ": " ++ e) := by
  induction pre with
  | nil =>
    intro v w post hok hbad
    have h' : some v = some w := hok
    injection h' with h'
    subst h'
    cases hA : bad.Apply v with
    | mk v1 err =>
      rw [hA] at hbad
      simp only at hbad
      subst hbad
      simp only [List.nil_append, applyFilterRules, hA]
  | cons r rest ih =>
    intro v w post hok hbad
    cases hA : r.Apply v with
    | mk v1 err =>
      cases err with
      | some e1 =>
        exfalso
        unfold applyOk at hok
        rw [hA] at hok
        exact Option.noConfusion hok
      | none =>
        have h1 : applyOk v1 rest = some w := by
          unfold applyOk at hok
          rw [hA] at hok
          exact hok
        have hstep : applyFilterRules v ((r :: rest) ++ bad :: post) =
            applyFilterRules v1 (rest ++ bad :: post) := by
          simp only [List.cons_append, applyFilterRules, hA]
          rfl
        rw [hstep]
        exact ih v1 w post h1 hbad

/-- C1: the claim says `Reset()` leaves the rules and filterRules lists
unchanged. It does not: `Reset()` calls `resetRules()`, which truncates both
lists to empty. Concretely, a Validation holding one rule has no rules left
after `Reset()`. -/
theorem c1_reset_keeps_rules_counterexample :
    vC1.rules = [ruleReq] ∧ vC1.Reset.rules = [] ∧ vC1.Reset.rules ≠ vC1.rules := by
  refine ⟨rfl, rfl, ?_⟩
  decide

/-- C1 (amended): `ResetResult()` clears the run-state (Errors, hasError,
hasFiltered, hasValidated, safeData, filteredData) while leaving rules and
filterRules (and the data source, defaults, scenes, validators and translator)
unchanged; `Reset()` clears the same run-state but additionally truncates the
rules and filterRules lists to empty. -/
theorem c1_resetResult_clears_state_keeps_rules (v : Validation α) :
    v.ResetResult.rules = v.rules
    ∧ v.ResetResult.filterRules = v.filterRules
    ∧ v.ResetResult.Errors = []
    ∧ v.ResetResult.hasError = false
    ∧ v.ResetResult.hasFiltered = false
    ∧ v.ResetResult.hasValidated = false
    ∧ v.ResetResult.safeData = []
    ∧ v.ResetResult.filteredData = []
    ∧ v.ResetResult.data = v.data
    ∧ v.ResetResult.defValues = v.defValues
    ∧ v.ResetResult.scene = v.scene
    ∧ v.ResetResult.scenes = v.scenes
    ∧ v.ResetResult.sceneFields = v.sceneFields
    ∧ v.ResetResult.validators = v.validators
    ∧ v.ResetResult.validatorMetas = v.validatorMetas
    ∧ v.ResetResult.trans = v.trans
    ∧ v.Reset.Errors = []
    ∧ v.Reset.hasError = false
    ∧ v.Reset.hasFiltered = false
    ∧ v.Reset.hasValidated = false
    ∧ v.Reset.safeData = []
    ∧ v.Reset.filteredData = []
    ∧ v.Reset.rules = []
    ∧ v.Reset.filterRules = [] :=
  ⟨rfl, rfl, rfl, rfl, rfl, rfl, rfl, rfl, rfl, rfl, rfl, rfl, rfl, rfl, rfl,
   rfl, rfl, rfl, rfl, rfl, rfl, rfl, rfl, rfl⟩

/-- C2: the claim says that with a nonempty sceneFields set a field is in scene
exactly when a proper dotted ancestor or the field itself is listed. But the Go
loop also probes `strings.Join(fields[0:0], ".")`, the empty string, so a scene
that lists the empty-string field name puts every field in scene: for
sceneFields = {""} and field "a" (which has no proper ancestors and is not
listed), isNotNeedToCheck returns false (in scene) while the claim demands
true. `claimInScene` transcribes the claim's own criterion. -/
theorem c2_empty_scene_field_counterexample :
    vC2.sceneFields = vC2.sceneFieldMap
    ∧ vC2.sceneFields ≠ []
    ∧ claimInScene vC2.sceneFields "a" = false
    ∧ vC2.isNotNeedToCheck "a" = false := by
  refine ⟨by decide, by decide, by decide, by decide⟩

/-- C2 (amended): if sceneFields is empty, isNotNeedToCheck returns false;
otherwise the field is in scene exactly when some dotted prefix made of its
first i segments for 0 ≤ i < segment count — including the empty prefix at
i = 0 — is listed in sceneFields, or the field itself is an exact member. -/
theorem c2_isNotNeedToCheck_characterization (v : Validation α) (field : String) :
    v.isNotNeedToCheck field = false ↔
      (v.sceneFields = []
       ∨ (∃ i, i < (splitDot field).length
            ∧ v.sceneFields.contains (joinDot ((splitDot field).take i)) = true)
       ∨ v.sceneFields.contains field = true) := by
  unfold Validation.isNotNeedToCheck
  by_cases h0 : v.sceneFields.length = 0
  · have hnil : v.sceneFields = [] := List.length_eq_zero.mp h0
    rw [if_pos h0]
    exact ⟨fun _ => Or.inl hnil, fun _ => rfl⟩
  · rw [if_neg h0]
    have hne : v.sceneFields ≠ [] := fun h => h0 (by simp [h])
    by_cases hany : ((List.range (splitDot field).length).any
        (fun i => v.sceneFields.contains (joinDot ((splitDot field).take i)))) = true
    · rw [if_pos hany]
      have hex : ∃ i, i < (splitDot field).length
          ∧ v.sceneFields.contains (joinDot ((splitDot field).take i)) = true := by
        rcases List.any_eq_true.mp hany with ⟨i, hi, hc⟩
        exact ⟨i, List.mem_range.mp hi, hc⟩
      exact ⟨fun _ => Or.inr (Or.inl hex), fun _ => rfl⟩
    · rw [if_neg hany]
      have hnex : ¬ ∃ i, i < (splitDot field).length
          ∧ v.sceneFields.contains (joinDot ((splitDot field).take i)) = true := by
        rintro ⟨i, hi, hc⟩
        exact hany (List.any_eq_true.mpr ⟨i, List.mem_range.mpr hi, hc⟩)
      constructor
      · intro hb
        refine Or.inr (Or.inr ?_)
        cases hcf : v.sceneFields.contains field with
        | true => rfl
        | false => rw [hcf] at hb; simp at hb
      · rintro (h | h | h)
        · exact absurd h hne
        · exact absurd h hnex
        · rw [h]
          rfl

/-- C4: Filtering is idempotent — a second call without an intervening reset
returns exactly the first call's state and success value (so no filter rule is
re-applied and no Errors entry is added), because the first call leaves
hasFiltered set and re-entry returns the cached success state. -/
theorem c4_filtering_idempotent (v : Validation α) :
    v.Filtering.1.Filtering = v.Filtering
    ∧ v.Filtering.1.Filtering.1.Errors = v.Filtering.1.Errors := by
  have key : v.Filtering.1.Filtering = v.Filtering := by
    unfold Validation.Filtering
    by_cases h : v.hasFiltered
    · simp [h]
    · simp [h]
  exact ⟨key, by rw [key]⟩

/-- C3: when, during a fresh Filtering run, the rules before `bad` all succeed
and `bad`'s Apply reports an error, the whole phase stops there: the final
state is exactly the post-error state plus one error entry of the
filter-specific class "_filter" (and the hasFiltered mark) — a right-hand side
that does not mention `post`, so no rule after the failing one is applied —
the success result is false, and Errors has grown by exactly one entry. The
Validation `v` is arbitrary, so this holds for both values of StopOnError. -/
theorem c3_filter_error_stops_filtering (v w : Validation α)
    (pre post : List (FilterRule α)) (bad : FilterRule α) (e : String)
    (hnf : v.hasFiltered = false)
    (hrules : v.filterRules = pre ++ bad :: post)
    (hok : applyOk v pre = some w)
    (hbad : (bad.Apply w).2 = some e) :
    v.Filtering =
      ({ (bad.Apply w).1.AddError filterError filterError
          ((bad.fields.headD "") ++ ": " ++ e) with hasFiltered := true },
        false)
    ∧ v.Filtering.1.Errors = v.Errors ++ [(v.trans.FieldName filterError,
        filterError, (bad.fields.headD "") ++ ": " ++ e)]
    ∧ v.Filtering.1.Errors.length = v.Errors.length + 1
    ∧ v.Filtering.1.hasError = true := by
  have hbody : applyFilterRules v v.filterRules =
      (bad.Apply w).1.AddError filterError filterError
        ((bad.fields.headD "") ++ ": " ++ e) := by
    rw [hrules]
    exact applyFilterRules_break bad e pre v w post hok hbad
  have hw : w = { v with filteredData := w.filteredData } :=
    applyOk_state pre v w hok
  have hx : (bad.Apply w).1 =
      { w with filteredData := (bad.Apply w).1.filteredData } := Apply_state bad w
  have hxe : (bad.Apply w).1.Errors = v.Errors := by rw [hx, hw]
  have hxt : (bad.Apply w).1.trans = v.trans := by rw [hx, hw]
  have hmain : v.Filtering =
      ({ (bad.Apply w).1.AddError filterError filterError
          ((bad.fields.headD "") ++ ": " ++ e) with hasFiltered := true },
        false) := by
    unfold Validation.Filtering
    rw [if_neg (by simp [hnf])]
    show ({ applyFilterRules v v.filterRules with hasFiltered := true },
        ({ applyFilterRules v v.filterRules with
            hasFiltered := true } : Validation α).IsSuccess) = _
    rw [hbody]
    have hfl : ∀ (u : Validation α), u.hasError = true →
        ({ u with hasFiltered := true } : Validation α).IsSuccess = false := by
      intro u hu
      simp [Validation.IsSuccess, hu]
    rw [hfl _ (AddError_hasError (bad.Apply w).1 filterError filterError
      ((bad.fields.headD "") ++ ": " ++ e))]
  refine ⟨hmain, ?_, ?_, ?_⟩
  · rw [hmain]
    show ((bad.Apply w).1.AddError filterError filterError
        ((bad.fields.headD "") ++ ": " ++ e)).Errors = _
    rw [AddError_Errors, hxe, hxt]
  · rw [hmain]
    show ((bad.Apply w).1.AddError filterError filterError
        ((bad.fields.headD "") ++ ": " ++ e)).Errors.length = _
    rw [AddError_Errors, hxe]
    simp
  · rw [hmain]
    show ((bad.Apply w).1.AddError filterError filterError
        ((bad.fields.headD "") ++ ": " ++ e)).hasError = true
    exact AddError_hasError _ _ _ _

/-- C3 witness: in vC3 the first rule succeeds, the second fails with "boom",
and Filtering records exactly the one filter-class error. -/
theorem c3_filter_error_witness :
    vC3.Filtering.1.Errors = vC3.Errors ++ [(vC3.trans.FieldName filterError,
      filterError, (frBad.fields.headD "") ++ ": " ++ "boom")] :=
  (c3_filter_error_stops_filtering vC3 wC3 [frOk] [frAfter] frBad "boom"
    rfl rfl rfl rfl).2.1

/-- C5: with a data source present, tryGet resolves through filteredData, then
safeData (both reporting the value as found and not zero), then the source's
TryGet; GetWithDefault keeps a found non-zero chain value as-is, and otherwise
falls back to the registered default when one exists. -/
theorem c5_value_resolution_chain (v : Validation α) (d : DataFace α)
    (key : String) (hd : v.data = some d) :
    (∀ x, v.filteredData.lookup key = some x →
        v.tryGet key = (some x, true, false))
    ∧ (v.filteredData.lookup key = none → ∀ x, v.safeData.lookup key = some x →
        v.tryGet key = (some x, true, false))
    ∧ (v.filteredData.lookup key = none → v.safeData.lookup key = none →
        v.tryGet key = d.tryGetF key)
    ∧ ((v.tryGet key).2.1 = true → (v.tryGet key).2.2 = false →
        v.GetWithDefault key = ((v.tryGet key).1, true, false))
    ∧ (((v.tryGet key).2.1 = false ∨ (v.tryGet key).2.2 = true) →
        ∀ dv, v.defValues.lookup key = some dv →
          v.GetWithDefault key = (some dv, (v.tryGet key).2.1, true))
    ∧ (((v.tryGet key).2.1 = false ∨ (v.tryGet key).2.2 = true) →
        v.defValues.lookup key = none →
          v.GetWithDefault key = ((v.tryGet key).1, (v.tryGet key).2.1, false)) := by
  refine ⟨?_, ?_, ?_, ?_, ?_, ?_⟩
  · intro x hx
    unfold Validation.tryGet
    rw [hd, hx]
  · intro hf x hs
    unfold Validation.tryGet
    rw [hd, hf, hs]
  · intro hf hs
    unfold Validation.tryGet
    rw [hd, hf, hs]
  · intro hex hz
    cases ht : v.tryGet key with
    | mk val p =>
      cases p with
      | mk ex z =>
        rw [ht] at hex hz
        simp only at hex hz
        subst hex
        subst hz
        simp only [Validation.GetWithDefault, ht]
        simp
  · intro hmiss dv hdv
    cases ht : v.tryGet key with
    | mk val p =>
      cases p with
      | mk ex z =>
        rw [ht] at hmiss
        simp only at hmiss
        have hcond : (ex && !z) = false := by
          rcases hmiss with h | h
          · rw [h]; rfl
          · rw [h]; simp
        simp only [Validation.GetWithDefault, ht, hcond, hdv]
        simp
  · intro hmiss hnone
    cases ht : v.tryGet key with
    | mk val p =>
      cases p with
      | mk ex z =>
        rw [ht] at hmiss
        simp only at hmiss
        have hcond : (ex && !z) = false := by
          rcases hmiss with h | h
          · rw [h]; rfl
          · rw [h]; simp
        simp only [Validation.GetWithDefault, ht, hcond, hnone]
        simp

/-- C5 witness: in vC5 the filteredData entry for "f" wins the chain. -/
theorem c5_chain_witness : vC5.tryGet "f" = (some 7, true, false) :=
  (c5_value_resolution_chain vC5 dfMap "f" rfl).1 7 rfl

/-- C8: with a data source present, updateValue on a non-struct source returns
the value unchanged with no error — for every possible Set implementation of
the source, so Set is never consulted — while on a struct-backed source it
returns exactly the source's Set applied to the field name with a trailing
".*" stripped. -/
theorem c8_updateValue_writeback (v : Validation α) (d : DataFace α)
    (field : String) (val : α) (hd : v.data = some d) :
    (d.typ ≠ sourceStruct → v.updateValue field val = some (val, none))
    ∧ (d.typ = sourceStruct →
        v.updateValue field val = some (d.setF (trimSuffix field ".*") val)) := by
  constructor
  · intro h
    simp only [Validation.updateValue, hd]
    rw [if_neg h]
  · intro h
    simp only [Validation.updateValue, hd]
    rw [if_pos h]

/-- C8 witness: the map-backed source passes the value through (its Set, which
would report an error, is not consulted); the struct-backed source goes through
Set with ".*" stripped. -/
theorem c8_updateValue_witness :
    vMap.updateValue "name.*" 5 = some (5, none)
    ∧ vStruct.updateValue "name.*" 5 =
        some (dfStruct.setF (trimSuffix "name.*" ".*") 5) :=
  ⟨(c8_updateValue_writeback vMap dfMap "name.*" 5 rfl).1 (by decide),
   (c8_updateValue_writeback vStruct dfStruct "name.*" 5 rfl).2 rfl⟩

/-- C10: with a nil data source, Raw, Get and tryGet report (nil, false), Safe
reports the key absent even when safeData holds an entry for it, and Set
returns ErrEmptyData; all of these are total functions of the state (no
panic). -/
theorem c10_nil_data_safe_ops (v : Validation α) (key f : String) (val : α)
    (hd : v.data = none) :
    v.Raw key = (none, false)
    ∧ v.Get key = (none, false)
    ∧ v.tryGet key = (none, false, false)
    ∧ v.Safe key = (none, false)
    ∧ (∀ x, v.safeData.lookup key = some x → v.Safe key = (none, false))
    ∧ v.Set f val = some ErrEmptyData := by
  refine ⟨?_, ?_, ?_, ?_, fun x _ => ?_, ?_⟩ <;>
    simp [Validation.Raw, Validation.Get, Validation.tryGet, Validation.Safe,
      Validation.Set, hd]

/-- C10 witness: vNil has a nil data source and safeData entry ("k", 5), yet
Safe reports "k" absent and Set fails with ErrEmptyData. -/
theorem c10_nil_data_witness :
    vNil.Safe "k" = (none, false) ∧ vNil.Set "k" 3 = some ErrEmptyData :=
  ⟨(c10_nil_data_safe_ops vNil "k" "k" 3 rfl).2.2.2.2.1 5 rfl,
   (c10_nil_data_safe_ops vNil "k" "k" 3 rfl).2.2.2.2.2⟩

/-- C6: validator-name resolution tries the session-local table, then the
global table `g`, then — only for a struct-backed data source — the struct's
own method lookup; the first hit wins and leaves the state unchanged, except
that a struct-method hit is memoized into the session-local tables, so an
immediate second resolution of the same name finds it locally without touching
the state again. A locally registered custom validator shadows any global
entry of the same name (conjunct one via AddValidator), while a session
without the local entry still resolves the global one (conjunct two). -/
theorem c6_validator_resolution_order (v : Validation α)
    (g : List (String × funcMeta)) (name : String) :
    (∀ fm, v.validatorMetas.lookup name = some fm →
        v.validatorMeta g name = (some fm, v))
    ∧ (v.validatorMetas.lookup name = none → ∀ fm, g.lookup name = some fm →
        v.validatorMeta g name = (some fm, v))
    ∧ (∀ d fv, v.validatorMetas.lookup name = none → g.lookup name = none →
        v.data = some d → d.typ = sourceStruct → d.funcValueF name = some fv →
        v.validatorMeta g name = (some (newFuncMeta name false fv),
          { v with
            validators := (name, validatorTypeCustom) :: v.validators
            validatorMetas := (name, newFuncMeta name false fv) :: v.validatorMetas })
        ∧ (v.validatorMeta g name).2.validatorMeta g name
            = (some (newFuncMeta name false fv), (v.validatorMeta g name).2))
    ∧ (∀ fv, (v.AddValidator name fv).validatorMeta g name
        = (some (newFuncMeta name false fv), v.AddValidator name fv)) := by
  refine ⟨?_, ?_, ?_, ?_⟩
  · intro fm h
    simp only [Validation.validatorMeta, h]
  · intro h fm hg
    simp only [Validation.validatorMeta, h, hg]
  · intro d fv h hg hdata htyp hfv
    have hres : v.validatorMeta g name = (some (newFuncMeta name false fv),
        { v with
          validators := (name, validatorTypeCustom) :: v.validators
          validatorMetas := (name, newFuncMeta name false fv) :: v.validatorMetas }) := by
      simp only [Validation.validatorMeta, h, hg, hdata, htyp, if_true]
      simp [hfv]
    refine ⟨hres, ?_⟩
    rw [hres]
    simp [Validation.validatorMeta, List.lookup]
  · intro fv
    simp [Validation.validatorMeta, Validation.AddValidator, List.lookup]

/-- C6 witness: in vStruct, the name "checkIt" misses the local and global
tables, is found as a struct method, and is memoized into the local tables. -/
theorem c6_resolution_witness :
    vStruct.validatorMeta gTable "checkIt" = (some (newFuncMeta "checkIt" false 9),
      { vStruct with
        validators := [("checkIt", validatorTypeCustom)]
        validatorMetas := [("checkIt", newFuncMeta "checkIt" false 9)] }) :=
  ((c6_validator_resolution_order vStruct gTable "checkIt").2.2.1 dfStruct 9
    rfl rfl rfl rfl rfl).1

theorem applyFilterRules_monotone (rs : List (FilterRule α)) :
    ∀ v : Validation α,
      (∃ t, (applyFilterRules v rs).Errors = v.Errors ++ t)
      ∧ (v.hasError = true → (applyFilterRules v rs).hasError = true) := by
  induction rs with
  | nil =>
    intro v
    exact ⟨⟨[], by simp [applyFilterRules]⟩,
      fun h => by simpa [applyFilterRules] using h⟩
  | cons r rest ih =>
    intro v
    cases hA : r.Apply v with
    | mk v1 err =>
      have hst : v1 = { v with filteredData := v1.filteredData } := by
        have := Apply_state r v
        rw [hA] at this
        simpa using this
      cases err with
      | some e =>
        have hstep : applyFilterRules v (r :: rest) =
            v1.AddError filterError filterError
              ((r.fields.headD "") ++ ": " ++ e) := by
          simp only [applyFilterRules, hA]
        rw [hstep]
        constructor
        · refine ⟨[(v1.trans.FieldName filterError, filterError,
            (r.fields.headD "") ++ ": " ++ e)], ?_⟩
          rw [AddError_Errors]
          have he : v1.Errors = v.Errors := by rw [hst]
          rw [he]
        · intro _
          exact AddError_hasError _ _ _ _
      | none =>
        have hstep : applyFilterRules v (r :: rest) =
            applyFilterRules v1 rest := by
          simp only [applyFilterRules, hA]
        rw [hstep]
        rcases ih v1 with ⟨⟨t, ht⟩, hmono⟩
        constructor
        · refine ⟨t, ?_⟩
          rw [ht]
          have he : v1.Errors = v.Errors := by rw [hst]
          rw [he]
        · intro h
          apply hmono
          rw [hst]
          exact h

/-- C7: AddError always raises hasError (so IsOK is false and IsFail true) and
appends the entry under the translated display name of the field; the fail
flag and the Errors entries survive the other state-changing operations —
Filtering never lowers the flag and only appends entries, AddValidator and
SetDefValue touch neither — and only ResetResult/Reset clear them. -/
theorem c7_addError_invariant (v : Validation α) (f c m : String) (fv : Nat)
    (val : α) :
    (v.AddError f c m).hasError = true
    ∧ (v.AddError f c m).IsOK = false
    ∧ (v.AddError f c m).IsFail = true
    ∧ (v.AddError f c m).Errors = v.Errors ++ [(v.trans.FieldName f, c, m)]
    ∧ (v.hasError = true → v.Filtering.1.hasError = true)
    ∧ (∃ t, v.Filtering.1.Errors = v.Errors ++ t)
    ∧ (v.AddValidator f fv).hasError = v.hasError
    ∧ (v.AddValidator f fv).Errors = v.Errors
    ∧ (v.SetDefValue f val).hasError = v.hasError
    ∧ (v.SetDefValue f val).Errors = v.Errors
    ∧ v.ResetResult.hasError = false
    ∧ v.ResetResult.Errors = []
    ∧ v.Reset.hasError = false
    ∧ v.Reset.Errors = [] := by
  refine ⟨AddError_hasError v f c m, ?_, ?_, AddError_Errors v f c m, ?_, ?_,
    rfl, rfl, rfl, rfl, rfl, rfl, rfl, rfl⟩
  · simp [Validation.IsOK, AddError_hasError]
  · simp [Validation.IsFail, AddError_hasError]
  · intro h
    unfold Validation.Filtering
    by_cases hf : v.hasFiltered
    · rw [if_pos hf]
      exact h
    · rw [if_neg hf]
      show ({ applyFilterRules v v.filterRules with
          hasFiltered := true } : Validation α).hasError = true
      exact (applyFilterRules_monotone v.filterRules v).2 h
  · unfold Validation.Filtering
    by_cases hf : v.hasFiltered
    · rw [if_pos hf]
      exact ⟨[], by simp⟩
    · rw [if_neg hf]
      rcases (applyFilterRules_monotone v.filterRules v).1 with ⟨t, ht⟩
      refine ⟨t, ?_⟩
      show ({ applyFilterRules v v.filterRules with
          hasFiltered := true } : Validation α).Errors = v.Errors ++ t
      exact ht

/-- C7 witness: on a session already in error, AddError appends under the
translated name and Filtering keeps the fail flag raised. -/
theorem c7_invariant_witness :
    (vErr.AddError "name" "required" "name is required").Errors =
      vErr.Errors ++ [(vErr.trans.FieldName "name", "required", "name is required")]
    ∧ vErr.Filtering.1.hasError = true :=
  ⟨(c7_addError_invariant vErr "name" "required" "name is required" 0 0).2.2.2.1,
   (c7_addError_invariant vErr "name" "required" "name is required" 0 0).2.2.2.2.1 rfl⟩

end GoValidate

namespace Jsonutil

/-- C9: the adapter's status mapping — 415 for no data, ambiguous dual data,
or (on the request path, with a readable body) a non-JSON content type; the
request path with a JSON content type behaves exactly like the raw-data path;
400 for a JSON syntax error (reporting the byte offset), unexpected EOF, a
type-mismatched field (reporting field and offset), an unknown field, an empty
body (EOF) and trailing extra JSON values; 413 for an oversized body; 500 for
any other decode failure; 200 otherwise. -/
theorem c9_unmarshal_status_mapping :
    Unmarshal none none = (415, some "no data provided")
    ∧ (∀ (req : Request) (b : Body), (Unmarshal (some req) (some b)).1 = 415)
    ∧ (∀ b : Body, Unmarshal (some (Request.mk false false b)) none =
        (415, some "content-type is not application/json"))
    ∧ (∀ b : Body, Unmarshal (some (Request.mk false true b)) none =
        Unmarshal none (some b))
    ∧ (∀ off more, Unmarshal none (some (Body.mk (DecodeResult.synErr off) more)) =
        (400, some ("malformed json at position " ++ toString off)))
    ∧ (∀ more, (Unmarshal none (some (Body.mk DecodeResult.unexpectedEOF more))).1
        = 400)
    ∧ (∀ f off more,
        Unmarshal none (some (Body.mk (DecodeResult.typeMismatch f off) more)) =
          (400, some ("invalid value " ++ f ++ " at position " ++ toString off)))
    ∧ (∀ n more,
        (Unmarshal none (some (Body.mk (DecodeResult.unknownField n) more))).1 = 400)
    ∧ (∀ more, (Unmarshal none (some (Body.mk DecodeResult.eof more))).1 = 400)
    ∧ Unmarshal none (some (Body.mk DecodeResult.ok true)) =
        (400, some "body must contain only one JSON object")
    ∧ (∀ more, (Unmarshal none (some (Body.mk DecodeResult.tooLarge more))).1 = 413)
    ∧ (∀ s more,
        (Unmarshal none (some (Body.mk (DecodeResult.otherErr s) more))).1 = 500)
    ∧ Unmarshal none (some (Body.mk DecodeResult.ok false)) = (200, none) := by
  refine ⟨rfl, ?_, ?_, ?_, ?_, ?_, ?_, ?_, ?_, rfl, ?_, ?_, rfl⟩ <;> intros <;> rfl

end Jsonutil
